import Mathlib

/-!
Shallow embedding of the booking service in
`src/app/modules/booking/service.server.ts` (shelf.nu).

Bookings live in a relational store accessed through Prisma; here the store
is a `List Booking` and the Prisma calls (`findMany`, `count`, `create`,
`update` with relation `connect` / `disconnect` directives) are modelled by
pure functions following Prisma's documented semantics.  Timestamps are
integers, ids are strings, and JavaScript truthiness of optional string /
list arguments is modelled explicitly.
-/

/-- The `BookingStatus` enum of the Prisma schema. -/
inductive BookingStatus
  | DRAFT | RESERVED | ONGOING | OVERDUE | COMPLETE | ARCHIVED | CANCELLED
  deriving DecidableEq, Repr

/-- A persisted booking row together with its many-to-many asset relation
(`assets` is the list of connected asset ids). -/
structure Booking where
  id : String
  name : String
  fromDate : Int
  toDate : Int
  status : BookingStatus
  organizationId : String
  creatorId : String
  custodianUserId : Option String
  custodianTeamMemberId : Option String
  assets : List String
  createdAt : Int
  deriving DecidableEq, Repr

/-- JavaScript truthiness of an optional string (`undefined`, `null` and
`""` are falsy). -/
def strTruthy : Option String → Bool
  | none => false
  | some s => !s.isEmpty

/-- JavaScript truthiness of `xs?.length` for an optional list. -/
def listTruthy {α : Type} : Option (List α) → Bool
  | none => false
  | some l => l.length != 0

/-- Case-insensitive substring test, modelling Prisma's
`contains` / `mode: "insensitive"` string filter. -/
def containsInsensitive (hay pat : String) : Bool :=
  let h := hay.data.map Char.toLower
  let p := pat.data.map Char.toLower
  (List.range (h.length + 1)).any fun i => ((h.drop i).take p.length) == p

/-- The argument object of `getBookings` (defaults as in the source:
`page = 1`, `perPage = 8`). -/
structure GetBookingsArgs where
  organizationId : String
  page : Int := 1
  perPage : Int := 8
  search : Option String := none
  statuses : Option (List BookingStatus) := none
  assetIds : Option (List String) := none
  custodianUserId : Option String := none
  custodianTeamMemberId : Option String := none
  excludeBookingIds : Option (List String) := none
  bookingFrom : Option Int := none
  bookingTo : Option Int := none
  deriving DecidableEq, Repr

/-- The time clause that `getBookings` puts in `where.OR` when both
`bookingFrom` and `bookingTo` are given:
`(from <= bookingTo AND to >= bookingFrom) OR
 (from >= bookingFrom AND to <= bookingTo)`. -/
def overlapTwoClause (f t targetFrom targetTo : Int) : Bool :=
  (decide (f ≤ targetTo) && decide (t ≥ targetFrom)) ||
    (decide (f ≥ targetFrom) && decide (t ≤ targetTo))

/-- The general overlap test named by the spec:
`from <= targetTo AND to >= targetFrom`. -/
def overlapSingle (f t targetFrom targetTo : Int) : Bool :=
  decide (f ≤ targetTo) && decide (t ≥ targetFrom)

/-- All clauses of the `where` object of `getBookings` except the time
window clause, in source order: organization scope, case-insensitive name
search, custodian team member, custodian user, status membership, asset
intersection, booking-id exclusion. -/
def matchesBase (a : GetBookingsArgs) (b : Booking) : Bool :=
  (b.organizationId == a.organizationId)
  && (match a.search with
      | some s => if (s.trim).length > 0 then containsInsensitive b.name s.trim else true
      | none => true)
  && (if strTruthy a.custodianTeamMemberId
      then b.custodianTeamMemberId == a.custodianTeamMemberId else true)
  && (if strTruthy a.custodianUserId
      then b.custodianUserId == a.custodianUserId else true)
  && (match a.statuses with
      | some l => if l.length != 0 then l.contains b.status else true
      | none => true)
  && (match a.assetIds with
      | some l => if l.length != 0 then b.assets.any (fun x => l.contains x) else true
      | none => true)
  && (match a.excludeBookingIds with
      | some l => if l.length != 0 then !(l.contains b.id) else true
      | none => true)

/-- The time window clause of the `where` object: present only when both
`bookingFrom` and `bookingTo` are supplied (Date objects are always truthy). -/
def matchesTime (a : GetBookingsArgs) (b : Booking) : Bool :=
  match a.bookingFrom, a.bookingTo with
  | some targetFrom, some targetTo => overlapTwoClause b.fromDate b.toDate targetFrom targetTo
  | _, _ => true

/-- The complete `where` predicate built by `getBookings`. -/
def matchesWhere (a : GetBookingsArgs) (b : Booking) : Bool :=
  matchesBase a b && matchesTime a b

/-- `skip = page > 1 ? (page - 1) * perPage : 0` — computed from the raw
`perPage` argument. -/
def getBookingsSkip (page perPage : Int) : Int :=
  if page > 1 then (page - 1) * perPage else 0

/-- `take = perPage >= 1 && perPage <= 100 ? perPage : 20`. -/
def getBookingsTake (perPage : Int) : Int :=
  if 1 ≤ perPage ∧ perPage ≤ 100 then perPage else 20

/-- Insert a booking into a list sorted by `createdAt` descending. -/
def insertDesc (b : Booking) : List Booking → List Booking
  | [] => [b]
  | c :: cs => if c.createdAt ≤ b.createdAt then b :: c :: cs else c :: insertDesc b cs

/-- `orderBy: { createdAt: "desc" }` of the store's `findMany`. -/
def sortByCreatedAtDesc : List Booking → List Booking
  | [] => []
  | b :: bs => insertDesc b (sortByCreatedAtDesc bs)

/-- The rows matching the `where` predicate, in `findMany` order; the page
query pages over this list and `count` is its length. -/
def bookingsMatching (s : List Booking) (a : GetBookingsArgs) : List Booking :=
  (sortByCreatedAtDesc s).filter (matchesWhere a)

/-- Result of `getBookings`: the page of bookings and the total count. -/
structure GetBookingsResult where
  bookings : List Booking
  bookingCount : Nat
  deriving DecidableEq, Repr

/-- `getBookings`: builds the `where` object, then runs
`findMany { skip, take, where, orderBy: createdAt desc }` and
`count { where }` against the store `s`. -/
def getBookings (s : List Booking) (a : GetBookingsArgs) : GetBookingsResult :=
  { bookings :=
      ((bookingsMatching s a).drop (getBookingsSkip a.page a.perPage).toNat).take
        (getBookingsTake a.perPage).toNat
    bookingCount := (bookingsMatching s a).length }

/-- Interval intersection as the spec states it: the booking's interval
`[from, to]` and the target window `[D1, D2]` share at least one point. -/
def intervalIntersects (f t d1 d2 : Int) : Prop :=
  ∃ x : Int, f ≤ x ∧ x ≤ t ∧ d1 ≤ x ∧ x ≤ d2

/-- The payload accepted by `upsertBooking` (every field optional, as in the
`Partial<Pick<Booking, ...>>` type of the source). -/
structure UpsertPayload where
  id : Option String := none
  name : Option String := none
  fromDate : Option Int := none
  toDate : Option Int := none
  status : Option BookingStatus := none
  creatorId : Option String := none
  organizationId : Option String := none
  custodianUserId : Option String := none
  custodianTeamMemberId : Option String := none
  assetIds : Option (List String) := none
  deriving DecidableEq, Repr

/-- The `data` object handed to the store (`Prisma.BookingUpdateInput`):
scalar fields plus relation `connect` / `disconnect` directives. -/
structure BookingData where
  name : Option String := none
  fromDate : Option Int := none
  toDate : Option Int := none
  status : Option BookingStatus := none
  assetsConnect : Option (List String) := none
  assetsDisconnect : Option (List String) := none
  custodianUserConnect : Option String := none
  custodianUserDisconnect : Bool := false
  custodianTeamMemberConnect : Option String := none
  custodianTeamMemberDisconnect : Bool := false
  creatorConnect : Option String := none
  organizationConnect : Option String := none
  deriving DecidableEq, Repr

/-- An operation issued to the store (`db.booking.create` /
`db.booking.update`). -/
inductive StoreOp
  | create (d : BookingData)
  | update (id : String) (d : BookingData)
  deriving DecidableEq, Repr

/-- Errors raised by the store layer. -/
inductive StoreError
  | notFound
  | missingRequired
  deriving DecidableEq, Repr

/-- `data = { ...rest }`: the scalar fields of the payload. -/
def upsertRest (p : UpsertPayload) : BookingData :=
  { name := p.name, fromDate := p.fromDate, toDate := p.toDate, status := p.status }

/-- `if (assetIds?.length) data.assets = { connect: ... }`. -/
def upsertWithAssets (p : UpsertPayload) : BookingData :=
  if listTruthy p.assetIds then { upsertRest p with assetsConnect := p.assetIds }
  else upsertRest p

/-- The custodian resolution of `upsertBooking`: a truthy `custodianUserId`
connects the user and disconnects the team member; otherwise a truthy
`custodianTeamMemberId` connects the team member and disconnects the user;
otherwise neither relation is mentioned. -/
def upsertData (p : UpsertPayload) : BookingData :=
  if strTruthy p.custodianUserId then
    { upsertWithAssets p with
        custodianUserConnect := p.custodianUserId
        custodianTeamMemberDisconnect := true }
  else if strTruthy p.custodianTeamMemberId then
    { upsertWithAssets p with
        custodianTeamMemberConnect := p.custodianTeamMemberId
        custodianUserDisconnect := true }
  else upsertWithAssets p

/-- The store operation `upsertBooking` issues: with a truthy `id` an
`update`; otherwise a `create`, to which a truthy `creatorId` /
`organizationId` add the creator / organization connections. -/
def upsertOp (p : UpsertPayload) : StoreOp :=
  if strTruthy p.id then StoreOp.update (p.id.getD "") (upsertData p)
  else
    StoreOp.create
      { upsertData p with
          creatorConnect := if strTruthy p.creatorId then p.creatorId else none
          organizationConnect := if strTruthy p.organizationId then p.organizationId else none }

/-- Store model (Prisma semantics): `connect` on a many-to-many relation adds
the given records to the already connected ones (it does not replace them);
connecting an already connected record is a no-op. -/
def connectAssets (cur ids : List String) : List String :=
  ids.foldl (fun acc i => if acc.contains i then acc else acc ++ [i]) cur

/-- Store model (Prisma semantics): apply the asset `connect` then
`disconnect` directives to the currently connected ids; disconnecting an
absent association is a no-op. -/
def applyAssets (d : BookingData) (cur : List String) : List String :=
  match d.assetsDisconnect with
  | some ids =>
      (match d.assetsConnect with
       | some c => connectAssets cur c
       | none => cur).filter (fun x => !(ids.contains x))
  | none =>
      match d.assetsConnect with
      | some c => connectAssets cur c
      | none => cur

/-- Store model (Prisma semantics of `update`): supplied scalars overwrite,
omitted ones are untouched; relation `connect` sets the foreign key,
`disconnect: true` clears it. -/
def applyUpdate (d : BookingData) (b : Booking) : Booking :=
  { b with
    name := d.name.getD b.name
    fromDate := d.fromDate.getD b.fromDate
    toDate := d.toDate.getD b.toDate
    status := d.status.getD b.status
    creatorId := d.creatorConnect.getD b.creatorId
    organizationId := d.organizationConnect.getD b.organizationId
    assets := applyAssets d b.assets
    custodianUserId :=
      match d.custodianUserConnect with
      | some u => some u
      | none => if d.custodianUserDisconnect then none else b.custodianUserId
    custodianTeamMemberId :=
      match d.custodianTeamMemberConnect with
      | some t => some t
      | none => if d.custodianTeamMemberDisconnect then none else b.custodianTeamMemberId }

/-- Store model (Prisma semantics of `create`): the new row, with the
store-generated id `freshId`; `creator` and `organization` are required
relations. -/
def mkCreated (freshId : String) (d : BookingData) (creator org : String) : Booking :=
  { id := freshId
    name := d.name.getD ""
    fromDate := d.fromDate.getD 0
    toDate := d.toDate.getD 0
    status := d.status.getD BookingStatus.DRAFT
    organizationId := org
    creatorId := creator
    custodianUserId := d.custodianUserConnect
    custodianTeamMemberId := d.custodianTeamMemberConnect
    assets := d.assetsConnect.getD []
    createdAt := 0 }

/-- Store model: run one operation against the store.  `create` without the
required creator or organization connection is rejected by the store;
`update` of a missing id is rejected with `notFound`. -/
def runOp (freshId : String) (db : List Booking) : StoreOp → Except StoreError (List Booking × Booking)
  | StoreOp.create d =>
      match d.creatorConnect, d.organizationConnect with
      | some c, some o =>
          Except.ok (db ++ [mkCreated freshId d c o], mkCreated freshId d c o)
      | _, _ => Except.error StoreError.missingRequired
  | StoreOp.update i d =>
      match db.find? (fun b => b.id == i) with
      | none => Except.error StoreError.notFound
      | some b =>
          Except.ok (db.map (fun x => if x.id == i then applyUpdate d b else x), applyUpdate d b)

/-- `upsertBooking`: build the `data` object and issue the update or create
to the store. -/
def upsertBooking (freshId : String) (db : List Booking) (p : UpsertPayload) :
    Except StoreError (List Booking × Booking) :=
  runOp freshId db (upsertOp p)

/-- `removeAssets`: `db.booking.update` with
`data.assets.disconnect = assetIds.map(id => ({id}))`. -/
def removeAssets (db : List Booking) (id : String) (assetIds : List String) :
    Except StoreError (List Booking × Booking) :=
  runOp "" db (StoreOp.update id { assetsDisconnect := some assetIds })

/-! ## List-membership facts about the listing query -/

lemma mem_insertDesc (b x : Booking) (l : List Booking) :
    x ∈ insertDesc b l ↔ x = b ∨ x ∈ l := by
  induction l with
  | nil => simp [insertDesc]
  | cons c cs ih =>
    simp only [insertDesc]
    split
    · simp [List.mem_cons]
    · simp only [List.mem_cons, ih]
      tauto

lemma mem_sortByCreatedAtDesc (x : Booking) (l : List Booking) :
    x ∈ sortByCreatedAtDesc l ↔ x ∈ l := by
  induction l with
  | nil => simp [sortByCreatedAtDesc]
  | cons b bs ih => simp [sortByCreatedAtDesc, mem_insertDesc, ih]

lemma mem_bookingsMatching (s : List Booking) (a : GetBookingsArgs) (b : Booking) :
    b ∈ bookingsMatching s a ↔ (b ∈ s ∧ matchesWhere a b = true) := by
  simp [bookingsMatching, List.mem_filter, mem_sortByCreatedAtDesc]

lemma mem_of_mem_getBookings (s : List Booking) (a : GetBookingsArgs) (b : Booking)
    (h : b ∈ (getBookings s a).bookings) : b ∈ bookingsMatching s a :=
  List.mem_of_mem_drop (List.mem_of_mem_take h)

lemma org_eq_of_matchesBase (a : GetBookingsArgs) (b : Booking)
    (h : matchesBase a b = true) : b.organizationId = a.organizationId := by
  simp only [matchesBase, Bool.and_eq_true, beq_iff_eq] at h
  tauto

lemma matchesBase_of_matchesWhere (a : GetBookingsArgs) (b : Booking)
    (h : matchesWhere a b = true) : matchesBase a b = true := by
  simp only [matchesWhere, Bool.and_eq_true] at h
  exact h.1

/-- C2: for an interval `(from, to)` (so `from ≤ to`) the two-clause overlap
predicate used by `getBookings` is equivalent to the single general overlap
test `from <= targetTo AND to >= targetFrom`: the second clause is subsumed
by the first. -/
theorem overlap_twoClause_eq_single (f t targetFrom targetTo : Int) (h : f ≤ t) :
    overlapTwoClause f t targetFrom targetTo = overlapSingle f t targetFrom targetTo := by
  simp only [overlapTwoClause, overlapSingle]
  by_cases h1 : f ≤ targetTo <;> by_cases h2 : targetFrom ≤ t <;>
    simp [h1, h2] <;> omega

theorem overlap_twoClause_eq_single_witness :
    (0 : Int) ≤ 5 ∧ overlapTwoClause 0 5 3 9 = overlapSingle 0 5 3 9 :=
  ⟨by decide, overlap_twoClause_eq_single 0 5 3 9 (by decide)⟩

/-- C6: every booking in the page returned by `getBookings` carries the
requesting organization's id — the listing never leaves the tenant. -/
theorem getBookings_org_scoped (s : List Booking) (a : GetBookingsArgs) (b : Booking)
    (h : b ∈ (getBookings s a).bookings) : b.organizationId = a.organizationId := by
  have hm := (mem_bookingsMatching s a b).mp (mem_of_mem_getBookings s a b h)
  exact org_eq_of_matchesBase a b (matchesBase_of_matchesWhere a b hm.2)

def bk6 : Booking :=
  { id := "b6", name := "camera kit", fromDate := 0, toDate := 10,
    status := BookingStatus.RESERVED, organizationId := "o6", creatorId := "u6",
    custodianUserId := none, custodianTeamMemberId := none, assets := [],
    createdAt := 0 }

def a6 : GetBookingsArgs := { organizationId := "o6" }

theorem getBookings_org_scoped_witness : bk6.organizationId = a6.organizationId :=
  getBookings_org_scoped [bk6] a6 bk6 (by decide)

lemma getBookings_length_le (s : List Booking) (a : GetBookingsArgs) :
    (getBookings s a).bookings.length ≤ (getBookingsTake a.perPage).toNat := by
  simp only [getBookings, List.length_take]
  exact min_le_left _ _

/-- C7: the effective page size of `getBookings` is `perPage` when
`1 ≤ perPage ≤ 100` and `20` otherwise; hence `perPage = 0` or `250` return
at most 20 bookings and `perPage = 50` returns at most 50. -/
theorem getBookings_effective_page_size (s : List Booking) (a : GetBookingsArgs) :
    (1 ≤ a.perPage ∧ a.perPage ≤ 100 → getBookingsTake a.perPage = a.perPage) ∧
    (¬(1 ≤ a.perPage ∧ a.perPage ≤ 100) → getBookingsTake a.perPage = 20) ∧
    ((a.perPage = 0 ∨ a.perPage = 250) → (getBookings s a).bookings.length ≤ 20) ∧
    (a.perPage = 50 → (getBookings s a).bookings.length ≤ 50) := by
  refine ⟨fun h => by simp [getBookingsTake, h], fun h => by simp [getBookingsTake, h],
    fun h => ?_, fun h => ?_⟩
  · have ht : getBookingsTake a.perPage = 20 := by
      rcases h with h | h <;> rw [getBookingsTake, h] <;> decide
    have := getBookings_length_le s a
    rw [ht] at this
    exact this
  · have ht : getBookingsTake a.perPage = 50 := by rw [getBookingsTake, h]; decide
    have := getBookings_length_le s a
    rw [ht] at this
    exact this

def a7a : GetBookingsArgs := { organizationId := "o7", perPage := 0 }

def a7b : GetBookingsArgs := { organizationId := "o7", perPage := 50 }

theorem getBookings_effective_page_size_witness :
    (getBookings [] a7a).bookings.length ≤ 20 ∧ getBookingsTake a7b.perPage = a7b.perPage :=
  ⟨(getBookings_effective_page_size [] a7a).2.2.1 (Or.inl (by decide)),
    (getBookings_effective_page_size [] a7b).1 (by decide)⟩

lemma overlapTwoClause_iff_intersects (f t d1 d2 : Int) (hft : f ≤ t) (hd : d1 ≤ d2) :
    overlapTwoClause f t d1 d2 = true ↔ intervalIntersects f t d1 d2 := by
  simp only [overlapTwoClause, Bool.or_eq_true, Bool.and_eq_true, decide_eq_true_eq,
    intervalIntersects]
  constructor
  · intro h
    exact ⟨max f d1, le_max_left _ _, by omega, le_max_right _ _, by omega⟩
  · rintro ⟨x, h1, h2, h3, h4⟩
    left
    omega

/-- C1: when both `bookingFrom = D1` and `bookingTo = D2` are supplied (and
the intervals are well formed, `from ≤ to` and `D1 ≤ D2`), the rows matched
by the listing's `where` predicate are exactly the bookings passing the
other active filters whose interval `[from, to]` intersects `[D1, D2]`;
a booking entirely before `D1` or entirely after `D2` is excluded; with
either bound absent no time constraint is applied; and the returned page
only contains matched rows. -/
theorem getBookings_time_window (s : List Booking) (a : GetBookingsArgs) (b : Booking)
    (hmem : b ∈ s) (hbv : b.fromDate ≤ b.toDate) :
    (∀ d1 d2, a.bookingFrom = some d1 → a.bookingTo = some d2 → d1 ≤ d2 →
      ((b ∈ bookingsMatching s a ↔
          (matchesBase a b = true ∧ intervalIntersects b.fromDate b.toDate d1 d2))
        ∧ (b.toDate < d1 → b ∉ bookingsMatching s a)
        ∧ (d2 < b.fromDate → b ∉ bookingsMatching s a)))
    ∧ ((a.bookingFrom = none ∨ a.bookingTo = none) →
        (b ∈ bookingsMatching s a ↔ matchesBase a b = true))
    ∧ (b ∈ (getBookings s a).bookings → b ∈ bookingsMatching s a) := by
  have hm : b ∈ bookingsMatching s a ↔ matchesWhere a b = true := by
    rw [mem_bookingsMatching]
    simp [hmem]
  refine ⟨fun d1 d2 h1 h2 hd => ?_, fun h0 => ?_, mem_of_mem_getBookings s a b⟩
  · have ht : matchesTime a b = overlapTwoClause b.fromDate b.toDate d1 d2 := by
      simp [matchesTime, h1, h2]
    have hiff : b ∈ bookingsMatching s a ↔
        (matchesBase a b = true ∧ intervalIntersects b.fromDate b.toDate d1 d2) := by
      rw [hm, matchesWhere, Bool.and_eq_true, ht,
        overlapTwoClause_iff_intersects _ _ _ _ hbv hd]
    refine ⟨hiff, fun hlt hin => ?_, fun hgt hin => ?_⟩
    · obtain ⟨x, hx1, hx2, hx3, hx4⟩ := (hiff.mp hin).2
      omega
    · obtain ⟨x, hx1, hx2, hx3, hx4⟩ := (hiff.mp hin).2
      omega
  · have ht : matchesTime a b = true := by
      rcases h0 with h | h
      · cases hy : a.bookingTo <;> simp [matchesTime, h, hy]
      · cases hx : a.bookingFrom <;> simp [matchesTime, h, hx]
    rw [hm, matchesWhere, ht, Bool.and_true]

def bk1 : Booking :=
  { id := "b1", name := "projector", fromDate := 0, toDate := 5,
    status := BookingStatus.RESERVED, organizationId := "o1", creatorId := "u1",
    custodianUserId := none, custodianTeamMemberId := none, assets := [],
    createdAt := 0 }

def a1 : GetBookingsArgs :=
  { organizationId := "o1", bookingFrom := some 3, bookingTo := some 9 }

theorem getBookings_time_window_witness :
    bk1 ∈ bookingsMatching [bk1] a1 ↔
      (matchesBase a1 bk1 = true ∧ intervalIntersects bk1.fromDate bk1.toDate 3 9) :=
  (((getBookings_time_window [bk1] a1 bk1 (by decide) (by decide)).1 3 9 rfl rfl
    (by decide)).1)

def mkB10 (i : Nat) : Booking :=
  { id := "r", name := "n", fromDate := 0, toDate := 0,
    status := BookingStatus.DRAFT, organizationId := "o10", creatorId := "u10",
    custodianUserId := none, custodianTeamMemberId := none, assets := [],
    createdAt := Int.ofNat i }

/-- A store of 30 bookings of one organization. -/
def st10 : List Booking := (List.range 30).map mkB10

def a10 (page : Int) : GetBookingsArgs :=
  { organizationId := "o10", page := page, perPage := 250 }

/-- The booking created 6th; it sits past position 20 of the listing order. -/
def b10 : Booking := mkB10 5

lemma matchesWhere_a10 (page : Int) (b : Booking) :
    matchesWhere (a10 page) b = matchesWhere (a10 1) b := rfl

lemma bookingsMatching_a10 (page : Int) :
    bookingsMatching st10 (a10 page) = bookingsMatching st10 (a10 1) := by
  unfold bookingsMatching
  rw [funext (matchesWhere_a10 page)]

/-- C10: the skip offset of `getBookings` is computed from the raw `perPage`
argument, not the clamped page size: for `page > 1` the query skips
`(page - 1) * perPage` rows while taking at most 20 when `perPage` is out of
range, so with `perPage = 250` a matching booking past the first 20 rows is
returned on no page at all. -/
theorem getBookings_raw_skip :
    (∀ page perPage : Int, page > 1 →
      getBookingsSkip page perPage = (page - 1) * perPage) ∧
    (∀ perPage : Int, ¬(1 ≤ perPage ∧ perPage ≤ 100) → getBookingsTake perPage = 20) ∧
    (b10 ∈ bookingsMatching st10 (a10 1) ∧
      ∀ page : Int, b10 ∉ (getBookings st10 (a10 page)).bookings) := by
  refine ⟨fun page perPage h => by simp [getBookingsSkip, h],
    fun perPage h => by simp [getBookingsTake, h], by decide, fun page => ?_⟩
  show b10 ∉ ((bookingsMatching st10 (a10 page)).drop
      (getBookingsSkip page 250).toNat).take (getBookingsTake 250).toNat
  by_cases hp : page > 1
  · have hlen : (bookingsMatching st10 (a10 page)).length = 30 := by
      rw [bookingsMatching_a10]
      decide
    have hskip : getBookingsSkip page 250 = (page - 1) * 250 := by
      simp [getBookingsSkip, hp]
    have hnil : (bookingsMatching st10 (a10 page)).drop
        (getBookingsSkip page 250).toNat = [] := by
      refine List.drop_eq_nil_of_le ?_
      rw [hlen, hskip]
      omega
    rw [hnil]
    simp
  · have hskip : getBookingsSkip page 250 = 0 := by simp [getBookingsSkip, hp]
    rw [hskip, bookingsMatching_a10]
    decide

theorem getBookings_raw_skip_witness :
    getBookingsSkip 2 250 = (2 - 1) * 250 ∧ b10 ∉ (getBookings st10 (a10 2)).bookings :=
  ⟨getBookings_raw_skip.1 2 250 (by decide), getBookings_raw_skip.2.2.2 2⟩

/-! ## Facts about the `data` object built by `upsertBooking` -/

lemma uwa_custodianUserConnect (p : UpsertPayload) :
    (upsertWithAssets p).custodianUserConnect = none := by
  unfold upsertWithAssets; split <;> rfl

lemma uwa_custodianUserDisconnect (p : UpsertPayload) :
    (upsertWithAssets p).custodianUserDisconnect = false := by
  unfold upsertWithAssets; split <;> rfl

lemma uwa_custodianTeamMemberConnect (p : UpsertPayload) :
    (upsertWithAssets p).custodianTeamMemberConnect = none := by
  unfold upsertWithAssets; split <;> rfl

lemma uwa_custodianTeamMemberDisconnect (p : UpsertPayload) :
    (upsertWithAssets p).custodianTeamMemberDisconnect = false := by
  unfold upsertWithAssets; split <;> rfl

lemma uwa_creatorConnect (p : UpsertPayload) :
    (upsertWithAssets p).creatorConnect = none := by
  unfold upsertWithAssets; split <;> rfl

lemma uwa_organizationConnect (p : UpsertPayload) :
    (upsertWithAssets p).organizationConnect = none := by
  unfold upsertWithAssets; split <;> rfl

lemma uwa_assetsDisconnect (p : UpsertPayload) :
    (upsertWithAssets p).assetsDisconnect = none := by
  unfold upsertWithAssets; split <;> rfl

lemma uwa_assetsConnect (p : UpsertPayload) :
    (upsertWithAssets p).assetsConnect =
      (if listTruthy p.assetIds then p.assetIds else none) := by
  unfold upsertWithAssets
  split <;> rfl

lemma ud_creatorConnect (p : UpsertPayload) :
    (upsertData p).creatorConnect = none := by
  unfold upsertData
  split
  · exact uwa_creatorConnect p
  · split
    · exact uwa_creatorConnect p
    · exact uwa_creatorConnect p

lemma ud_organizationConnect (p : UpsertPayload) :
    (upsertData p).organizationConnect = none := by
  unfold upsertData
  split
  · exact uwa_organizationConnect p
  · split
    · exact uwa_organizationConnect p
    · exact uwa_organizationConnect p

lemma ud_assetsDisconnect (p : UpsertPayload) :
    (upsertData p).assetsDisconnect = none := by
  unfold upsertData
  split
  · exact uwa_assetsDisconnect p
  · split
    · exact uwa_assetsDisconnect p
    · exact uwa_assetsDisconnect p

lemma ud_assetsConnect (p : UpsertPayload) :
    (upsertData p).assetsConnect =
      (if listTruthy p.assetIds then p.assetIds else none) := by
  unfold upsertData
  split
  · exact uwa_assetsConnect p
  · split
    · exact uwa_assetsConnect p
    · exact uwa_assetsConnect p

lemma ud_custodian_user (p : UpsertPayload) (h : strTruthy p.custodianUserId = true) :
    (upsertData p).custodianUserConnect = p.custodianUserId ∧
    (upsertData p).custodianUserDisconnect = false ∧
    (upsertData p).custodianTeamMemberConnect = none ∧
    (upsertData p).custodianTeamMemberDisconnect = true := by
  unfold upsertData
  rw [h]
  exact ⟨rfl, uwa_custodianUserDisconnect p, uwa_custodianTeamMemberConnect p, rfl⟩

lemma ud_custodian_team (p : UpsertPayload) (h1 : strTruthy p.custodianUserId = false)
    (h2 : strTruthy p.custodianTeamMemberId = true) :
    (upsertData p).custodianTeamMemberConnect = p.custodianTeamMemberId ∧
    (upsertData p).custodianTeamMemberDisconnect = false ∧
    (upsertData p).custodianUserConnect = none ∧
    (upsertData p).custodianUserDisconnect = true := by
  unfold upsertData
  rw [h1, h2]
  exact ⟨rfl, uwa_custodianTeamMemberDisconnect p, uwa_custodianUserConnect p, rfl⟩

lemma ud_custodian_none (p : UpsertPayload) (h1 : strTruthy p.custodianUserId = false)
    (h2 : strTruthy p.custodianTeamMemberId = false) :
    (upsertData p).custodianUserConnect = none ∧
    (upsertData p).custodianUserDisconnect = false ∧
    (upsertData p).custodianTeamMemberConnect = none ∧
    (upsertData p).custodianTeamMemberDisconnect = false := by
  unfold upsertData
  rw [h1, h2]
  exact ⟨uwa_custodianUserConnect p, uwa_custodianUserDisconnect p,
    uwa_custodianTeamMemberConnect p, uwa_custodianTeamMemberDisconnect p⟩

lemma strTruthy_exists (o : Option String) (h : strTruthy o = true) : ∃ s, o = some s := by
  cases o with
  | none => simp [strTruthy] at h
  | some s => exact ⟨s, rfl⟩

lemma applyUpdate_id (d : BookingData) (b : Booking) : (applyUpdate d b).id = b.id := rfl

lemma applyUpdate_creatorId (d : BookingData) (b : Booking) :
    (applyUpdate d b).creatorId = d.creatorConnect.getD b.creatorId := rfl

lemma applyUpdate_organizationId (d : BookingData) (b : Booking) :
    (applyUpdate d b).organizationId = d.organizationConnect.getD b.organizationId := rfl

lemma applyUpdate_assets (d : BookingData) (b : Booking) :
    (applyUpdate d b).assets = applyAssets d b.assets := rfl

lemma applyUpdate_custodianUserId (d : BookingData) (b : Booking) :
    (applyUpdate d b).custodianUserId =
      (match d.custodianUserConnect with
       | some u => some u
       | none => if d.custodianUserDisconnect then none else b.custodianUserId) := rfl

lemma applyUpdate_custodianTeamMemberId (d : BookingData) (b : Booking) :
    (applyUpdate d b).custodianTeamMemberId =
      (match d.custodianTeamMemberConnect with
       | some t => some t
       | none => if d.custodianTeamMemberDisconnect then none else b.custodianTeamMemberId) := rfl

lemma mkCreated_creatorId (f : String) (d : BookingData) (c o : String) :
    (mkCreated f d c o).creatorId = c := rfl

lemma mkCreated_organizationId (f : String) (d : BookingData) (c o : String) :
    (mkCreated f d c o).organizationId = o := rfl

lemma mkCreated_custodianUserId (f : String) (d : BookingData) (c o : String) :
    (mkCreated f d c o).custodianUserId = d.custodianUserConnect := rfl

lemma mkCreated_custodianTeamMemberId (f : String) (d : BookingData) (c o : String) :
    (mkCreated f d c o).custodianTeamMemberId = d.custodianTeamMemberConnect := rfl

lemma mkCreated_assets (f : String) (d : BookingData) (c o : String) :
    (mkCreated f d c o).assets = d.assetsConnect.getD [] := rfl

lemma upsertBooking_update_eq (f : String) (db : List Booking) (p : UpsertPayload)
    (i : String) (b0 : Booking) (hid : p.id = some i) (ht : strTruthy p.id = true)
    (hfind : db.find? (fun b => b.id == i) = some b0) :
    upsertBooking f db p =
      Except.ok (db.map (fun x => if x.id == i then applyUpdate (upsertData p) b0 else x),
        applyUpdate (upsertData p) b0) := by
  unfold upsertBooking upsertOp
  rw [ht, if_pos rfl, hid, Option.getD_some]
  simp only [runOp]
  rw [hfind]

lemma upsertBooking_update_notFound (f : String) (db : List Booking) (p : UpsertPayload)
    (i : String) (hid : p.id = some i) (ht : strTruthy p.id = true)
    (hfind : db.find? (fun b => b.id == i) = none) :
    upsertBooking f db p = Except.error StoreError.notFound := by
  unfold upsertBooking upsertOp
  rw [ht, if_pos rfl, hid, Option.getD_some]
  simp only [runOp]
  rw [hfind]

lemma upsertBooking_create_eq (f : String) (db : List Booking) (p : UpsertPayload)
    (c o : String) (hid : strTruthy p.id = false)
    (hc : p.creatorId = some c) (hct : strTruthy p.creatorId = true)
    (ho : p.organizationId = some o) (hot : strTruthy p.organizationId = true) :
    upsertBooking f db p =
      Except.ok (db ++ [mkCreated f (upsertData p) c o], mkCreated f (upsertData p) c o) := by
  unfold upsertBooking upsertOp
  rw [hid, if_neg (by simp), hct, if_pos rfl, hc, hot, if_pos rfl, ho]
  unfold runOp
  rfl

lemma upsertBooking_create_missing (f : String) (db : List Booking) (p : UpsertPayload)
    (hid : strTruthy p.id = false) (hc : strTruthy p.creatorId = false) :
    upsertBooking f db p = Except.error StoreError.missingRequired := by
  unfold upsertBooking upsertOp
  rw [hid, if_neg (by simp), hc, if_neg (by simp)]
  unfold runOp
  rfl

lemma upsertBooking_create_noOrg (f : String) (db : List Booking) (p : UpsertPayload)
    (c : String) (hid : strTruthy p.id = false)
    (hc : p.creatorId = some c) (hct : strTruthy p.creatorId = true)
    (hot : strTruthy p.organizationId = false) :
    upsertBooking f db p = Except.error StoreError.missingRequired := by
  unfold upsertBooking upsertOp
  rw [hid, if_neg (by simp), hct, if_pos rfl, hc, hot, if_neg (by simp)]
  unfold runOp
  rfl

lemma upsertBooking_update_ok (f : String) (db : List Booking) (p : UpsertPayload)
    (i : String) (db' : List Booking) (ret : Booking)
    (hid : p.id = some i) (ht : strTruthy p.id = true)
    (hok : upsertBooking f db p = Except.ok (db', ret)) :
    ∃ b0, db.find? (fun b => b.id == i) = some b0 ∧
      ret = applyUpdate (upsertData p) b0 ∧
      db' = db.map (fun x => if x.id == i then applyUpdate (upsertData p) b0 else x) := by
  cases hfind : db.find? (fun b => b.id == i) with
  | none =>
      rw [upsertBooking_update_notFound f db p i hid ht hfind] at hok
      simp at hok
  | some b0 =>
      rw [upsertBooking_update_eq f db p i b0 hid ht hfind] at hok
      injection hok with h
      injection h with h1 h2
      exact ⟨b0, rfl, h2.symm, h1.symm⟩

lemma upsertBooking_create_ok (f : String) (db : List Booking) (p : UpsertPayload)
    (db' : List Booking) (ret : Booking) (hid : strTruthy p.id = false)
    (hok : upsertBooking f db p = Except.ok (db', ret)) :
    ∃ c o, p.creatorId = some c ∧ p.organizationId = some o ∧
      ret = mkCreated f (upsertData p) c o ∧ db' = db ++ [ret] := by
  cases hct : strTruthy p.creatorId with
  | false =>
      rw [upsertBooking_create_missing f db p hid hct] at hok
      simp at hok
  | true =>
      obtain ⟨c, hc⟩ := strTruthy_exists _ hct
      cases hot : strTruthy p.organizationId with
      | false =>
          rw [upsertBooking_create_noOrg f db p c hid hc hct hot] at hok
          simp at hok
      | true =>
          obtain ⟨o, ho⟩ := strTruthy_exists _ hot
          rw [upsertBooking_create_eq f db p c o hid hc hct ho hot] at hok
          injection hok with h
          injection h with h1 h2
          refine ⟨c, o, hc, ho, h2.symm, ?_⟩
          rw [← h1, h2]

lemma custodian_of_applyUpdate (p : UpsertPayload) (b0 : Booking) :
    (strTruthy p.custodianUserId = true →
      (applyUpdate (upsertData p) b0).custodianUserId = p.custodianUserId ∧
      (applyUpdate (upsertData p) b0).custodianTeamMemberId = none) ∧
    (strTruthy p.custodianUserId = false → strTruthy p.custodianTeamMemberId = true →
      (applyUpdate (upsertData p) b0).custodianTeamMemberId = p.custodianTeamMemberId ∧
      (applyUpdate (upsertData p) b0).custodianUserId = none) ∧
    (strTruthy p.custodianUserId = false → strTruthy p.custodianTeamMemberId = false →
      (applyUpdate (upsertData p) b0).custodianUserId = b0.custodianUserId ∧
      (applyUpdate (upsertData p) b0).custodianTeamMemberId = b0.custodianTeamMemberId) := by
  refine ⟨fun h => ?_, fun h1 h2 => ?_, fun h1 h2 => ?_⟩
  · obtain ⟨e1, e2, e3, e4⟩ := ud_custodian_user p h
    obtain ⟨u, hu⟩ := strTruthy_exists _ h
    rw [applyUpdate_custodianUserId, applyUpdate_custodianTeamMemberId, e1, e3, e4, hu]
    exact ⟨rfl, rfl⟩
  · obtain ⟨e1, e2, e3, e4⟩ := ud_custodian_team p h1 h2
    obtain ⟨t, ht2⟩ := strTruthy_exists _ h2
    rw [applyUpdate_custodianUserId, applyUpdate_custodianTeamMemberId, e1, e3, e4, ht2]
    exact ⟨rfl, rfl⟩
  · obtain ⟨e1, e2, e3, e4⟩ := ud_custodian_none p h1 h2
    rw [applyUpdate_custodianUserId, applyUpdate_custodianTeamMemberId, e1, e2, e3, e4]
    exact ⟨rfl, rfl⟩

lemma custodian_of_mkCreated (f : String) (p : UpsertPayload) (c o : String) :
    (strTruthy p.custodianUserId = true →
      (mkCreated f (upsertData p) c o).custodianUserId = p.custodianUserId ∧
      (mkCreated f (upsertData p) c o).custodianTeamMemberId = none) ∧
    (strTruthy p.custodianUserId = false → strTruthy p.custodianTeamMemberId = true →
      (mkCreated f (upsertData p) c o).custodianTeamMemberId = p.custodianTeamMemberId ∧
      (mkCreated f (upsertData p) c o).custodianUserId = none) ∧
    (strTruthy p.custodianUserId = false → strTruthy p.custodianTeamMemberId = false →
      (mkCreated f (upsertData p) c o).custodianUserId = none ∧
      (mkCreated f (upsertData p) c o).custodianTeamMemberId = none) := by
  refine ⟨fun h => ?_, fun h1 h2 => ?_, fun h1 h2 => ?_⟩
  · obtain ⟨e1, e2, e3, e4⟩ := ud_custodian_user p h
    rw [mkCreated_custodianUserId, mkCreated_custodianTeamMemberId, e1, e3]
    exact ⟨rfl, rfl⟩
  · obtain ⟨e1, e2, e3, e4⟩ := ud_custodian_team p h1 h2
    rw [mkCreated_custodianUserId, mkCreated_custodianTeamMemberId, e1, e3]
    exact ⟨rfl, rfl⟩
  · obtain ⟨e1, e2, e3, e4⟩ := ud_custodian_none p h1 h2
    rw [mkCreated_custodianUserId, mkCreated_custodianTeamMemberId, e1, e3]
    exact ⟨rfl, rfl⟩

/-- The custodian exclusivity invariant of the data model. -/
def atMostOneCustodian (b : Booking) : Prop :=
  b.custodianUserId = none ∨ b.custodianTeamMemberId = none

/-- C3: an `upsertBooking` that succeeds preserves custodian exclusivity (at
most one of the two custodian references is set), a supplied user custodian
is connected while the team-member custodian is cleared, else a supplied
team-member custodian is connected while the user custodian is cleared, and
with neither supplied an update leaves the existing assignment untouched. -/
theorem upsertBooking_custodian_exclusivity
    (f : String) (db : List Booking) (p : UpsertPayload) (db' : List Booking) (ret : Booking)
    (hpre : ∀ b ∈ db, atMostOneCustodian b)
    (hok : upsertBooking f db p = Except.ok (db', ret)) :
    atMostOneCustodian ret ∧ (∀ b ∈ db', atMostOneCustodian b) ∧
    (strTruthy p.custodianUserId = true →
      ret.custodianUserId = p.custodianUserId ∧ ret.custodianTeamMemberId = none) ∧
    (strTruthy p.custodianUserId = false → strTruthy p.custodianTeamMemberId = true →
      ret.custodianTeamMemberId = p.custodianTeamMemberId ∧ ret.custodianUserId = none) ∧
    (strTruthy p.custodianUserId = false → strTruthy p.custodianTeamMemberId = false →
      ∀ i b0, p.id = some i → strTruthy p.id = true →
        db.find? (fun b => b.id == i) = some b0 →
        ret.custodianUserId = b0.custodianUserId ∧
        ret.custodianTeamMemberId = b0.custodianTeamMemberId) := by
  by_cases hid : strTruthy p.id = true
  · obtain ⟨i, hi⟩ := strTruthy_exists _ hid
    obtain ⟨b0, hfind, hret, hdb⟩ := upsertBooking_update_ok f db p i db' ret hi hid hok
    have hb0 : b0 ∈ db := List.mem_of_find?_eq_some hfind
    have hC := custodian_of_applyUpdate p b0
    rw [← hret] at hC
    have hone : atMostOneCustodian ret := by
      by_cases h1 : strTruthy p.custodianUserId = true
      · exact Or.inr (hC.1 h1).2
      · have h1' : strTruthy p.custodianUserId = false := by simpa using h1
        by_cases h2 : strTruthy p.custodianTeamMemberId = true
        · exact Or.inl (hC.2.1 h1' h2).2
        · have h2' : strTruthy p.custodianTeamMemberId = false := by simpa using h2
          rcases hpre b0 hb0 with hcu | hctm
          · exact Or.inl (by rw [(hC.2.2 h1' h2').1, hcu])
          · exact Or.inr (by rw [(hC.2.2 h1' h2').2, hctm])
    refine ⟨hone, fun b hb => ?_, fun h => hC.1 h, fun h1 h2 => hC.2.1 h1 h2,
      fun h1 h2 i' b0' hi' hid2 hfind' => ?_⟩
    · rw [hdb] at hb
      obtain ⟨y, hy, hby⟩ := List.mem_map.mp hb
      by_cases hyid : (y.id == i) = true
      · rw [if_pos hyid] at hby
        rw [← hby, ← hret]
        exact hone
      · rw [if_neg hyid] at hby
        rw [← hby]
        exact hpre y hy
    · rw [hi] at hi'
      injection hi' with e
      subst e
      rw [hfind] at hfind'
      injection hfind' with e2
      subst e2
      exact hC.2.2 h1 h2
  · have hid' : strTruthy p.id = false := by simpa using hid
    obtain ⟨c, o, hc, ho, hret, hdb⟩ := upsertBooking_create_ok f db p db' ret hid' hok
    have hC := custodian_of_mkCreated f p c o
    rw [← hret] at hC
    have hone : atMostOneCustodian ret := by
      by_cases h1 : strTruthy p.custodianUserId = true
      · exact Or.inr (hC.1 h1).2
      · have h1' : strTruthy p.custodianUserId = false := by simpa using h1
        by_cases h2 : strTruthy p.custodianTeamMemberId = true
        · exact Or.inl (hC.2.1 h1' h2).2
        · have h2' : strTruthy p.custodianTeamMemberId = false := by simpa using h2
          exact Or.inl (hC.2.2 h1' h2').1
    refine ⟨hone, fun b hb => ?_, fun h => hC.1 h, fun h1 h2 => hC.2.1 h1 h2,
      fun h1 h2 i' b0' hi' hid2 hfind' => absurd hid2 hid⟩
    rw [hdb] at hb
    rcases List.mem_append.mp hb with h | h
    · exact hpre b h
    · rw [List.mem_singleton.mp h]
      exact hone

def p3 : UpsertPayload :=
  { creatorId := some "u3", organizationId := some "o3", custodianUserId := some "cu3" }

def nb3 : Booking :=
  { id := "b3", name := "", fromDate := 0, toDate := 0, status := BookingStatus.DRAFT,
    organizationId := "o3", creatorId := "u3", custodianUserId := some "cu3",
    custodianTeamMemberId := none, assets := [], createdAt := 0 }

theorem upsertBooking_custodian_exclusivity_witness :
    nb3.custodianUserId = p3.custodianUserId ∧ nb3.custodianTeamMemberId = none :=
  (upsertBooking_custodian_exclusivity "b3" [] p3 [nb3] nb3 (by simp) rfl).2.2.1 (by decide)

/-- C5: a successful `upsertBooking` without an id links `creatorId` and
`organizationId` exactly as supplied, while one with an id leaves the
existing booking's `creatorId` and `organizationId` unchanged even when the
payload supplies values for them. -/
theorem upsertBooking_creator_org
    (f : String) (db : List Booking) (p : UpsertPayload) (db' : List Booking) (ret : Booking)
    (hok : upsertBooking f db p = Except.ok (db', ret)) :
    (strTruthy p.id = false →
      ∀ c o, p.creatorId = some c → p.organizationId = some o →
        ret.creatorId = c ∧ ret.organizationId = o) ∧
    (strTruthy p.id = true →
      ∀ i b0, p.id = some i → db.find? (fun b => b.id == i) = some b0 →
        ret.creatorId = b0.creatorId ∧ ret.organizationId = b0.organizationId) := by
  constructor
  · intro hid c o hc ho
    obtain ⟨c', o', hc', ho', hret, hdb⟩ := upsertBooking_create_ok f db p db' ret hid hok
    rw [hc] at hc'
    injection hc' with e1
    subst e1
    rw [ho] at ho'
    injection ho' with e2
    subst e2
    rw [hret]
    exact ⟨mkCreated_creatorId f _ c o, mkCreated_organizationId f _ c o⟩
  · intro hid i b0 hi hfind
    obtain ⟨b0', hfind', hret, hdb⟩ := upsertBooking_update_ok f db p i db' ret hi hid hok
    rw [hfind] at hfind'
    injection hfind' with e
    subst e
    rw [hret]
    constructor
    · rw [applyUpdate_creatorId, ud_creatorConnect]
      rfl
    · rw [applyUpdate_organizationId, ud_organizationConnect]
      rfl

def p5 : UpsertPayload :=
  { name := some "offsite", creatorId := some "u5", organizationId := some "o5" }

def nb5 : Booking :=
  { id := "b5", name := "offsite", fromDate := 0, toDate := 0,
    status := BookingStatus.DRAFT, organizationId := "o5", creatorId := "u5",
    custodianUserId := none, custodianTeamMemberId := none, assets := [],
    createdAt := 0 }

theorem upsertBooking_creator_org_witness :
    nb5.creatorId = "u5" ∧ nb5.organizationId = "o5" :=
  (upsertBooking_creator_org "b5" [] p5 [nb5] nb5 rfl).1 (by decide) "u5" "o5" rfl rfl

lemma mem_connectAssets (cur ids : List String) (x : String) :
    x ∈ connectAssets cur ids ↔ (x ∈ cur ∨ x ∈ ids) := by
  induction ids generalizing cur with
  | nil => simp [connectAssets]
  | cons i is ih =>
    show x ∈ connectAssets (if cur.contains i then cur else cur ++ [i]) is ↔ _
    rw [ih]
    by_cases h : cur.contains i = true
    · have hm : i ∈ cur := by simpa using h
      simp only [if_pos h, List.mem_cons]
      constructor
      · rintro (hx | hx)
        · exact Or.inl hx
        · exact Or.inr (Or.inr hx)
      · rintro (hx | hx | hx)
        · exact Or.inl hx
        · exact Or.inl (by rw [hx]; exact hm)
        · exact Or.inr hx
    · simp only [if_neg h, List.mem_append, List.mem_cons, List.mem_singleton]
      tauto

def bk4 : Booking :=
  { id := "b4", name := "rig", fromDate := 0, toDate := 1,
    status := BookingStatus.RESERVED, organizationId := "o4", creatorId := "u4",
    custodianUserId := none, custodianTeamMemberId := none, assets := ["a1"],
    createdAt := 0 }

def p4 : UpsertPayload := { id := some "b4", assetIds := some ["a2"] }

def ret4 : Booking := { bk4 with assets := ["a1", "a2"] }

/-- C4 counterexample: updating the booking `bk4` (assets `{a1}`) with
`assetIds = [a2]` yields assets `{a1, a2}`, not the supplied list `[a2]`:
Prisma's `connect` adds to the connection set instead of replacing it. -/
theorem upsertBooking_assets_replace_cex :
    upsertBooking "f" [bk4] p4 = Except.ok ([ret4], ret4) ∧ ret4.assets ≠ ["a2"] :=
  ⟨rfl, by decide⟩

/-- C4 amended: a non-empty `assetIds` list on an update connects the given
ids in addition to the already connected assets (set union, not
replacement); only on a create is the resulting asset set exactly the given
ids. -/
theorem upsertBooking_assets_connect_union
    (f : String) (db : List Booking) (p : UpsertPayload) (db' : List Booking) (ret : Booking)
    (ids : List String) (hids : p.assetIds = some ids) (hne : ids ≠ [])
    (hok : upsertBooking f db p = Except.ok (db', ret)) :
    (strTruthy p.id = true →
      ∀ i b0, p.id = some i → db.find? (fun b => b.id == i) = some b0 →
        ∀ x, x ∈ ret.assets ↔ (x ∈ b0.assets ∨ x ∈ ids)) ∧
    (strTruthy p.id = false → ret.assets = ids) := by
  have hlt : listTruthy p.assetIds = true := by
    rw [hids]
    simp only [listTruthy, ne_eq, bne_iff_ne]
    simpa using hne
  have hac : (upsertData p).assetsConnect = some ids := by
    rw [ud_assetsConnect, hlt, if_pos rfl, hids]
  constructor
  · intro hid i b0 hi hfind x
    obtain ⟨b0', hfind', hret, hdb⟩ := upsertBooking_update_ok f db p i db' ret hi hid hok
    rw [hfind] at hfind'
    injection hfind' with e
    subst e
    rw [hret, applyUpdate_assets]
    unfold applyAssets
    rw [ud_assetsDisconnect, hac]
    exact mem_connectAssets b0.assets ids x
  · intro hid
    obtain ⟨c, o, hc, ho, hret, hdb⟩ := upsertBooking_create_ok f db p db' ret hid hok
    rw [hret, mkCreated_assets, hac]
    rfl

theorem upsertBooking_assets_connect_union_witness :
    "a1" ∈ ret4.assets ↔ ("a1" ∈ bk4.assets ∨ "a1" ∈ ["a2"]) :=
  (upsertBooking_assets_connect_union "f" [bk4] p4 [ret4] ret4 ["a2"] rfl (by decide)
    rfl).1 (by decide) "b4" bk4 rfl rfl "a1"

def p9 : UpsertPayload := { name := some "launch prep" }

/-- C9 counterexample: `upsertBooking` with no id and no `creatorId`
performs no validation of its own — it still issues a `create` operation to
the store, and the failure is the store's rejection of the missing required
relation, not a pre-store `ValidationError`. -/
theorem upsertBooking_no_prestore_validation_cex :
    upsertOp p9 = StoreOp.create { name := some "launch prep" } ∧
    upsertBooking "fresh" [] p9 = Except.error StoreError.missingRequired :=
  ⟨rfl, rfl⟩

/-- C9 amended: `upsertBooking` called without an id and without a (truthy)
`creatorId` does not reject the payload before reaching the store; it issues
a `create` store operation whose creator connection is absent, and the
rejection (`missingRequired`) originates in the store layer, which is left
unchanged by the failed call. -/
theorem upsertBooking_missing_creator_store_error
    (f : String) (db : List Booking) (p : UpsertPayload)
    (hid : strTruthy p.id = false) (hc : strTruthy p.creatorId = false) :
    (∃ d, upsertOp p = StoreOp.create d ∧ d.creatorConnect = none) ∧
    upsertBooking f db p = Except.error StoreError.missingRequired := by
  constructor
  · refine ⟨{ upsertData p with
        creatorConnect := none,
        organizationConnect :=
          if strTruthy p.organizationId then p.organizationId else none }, ?_, rfl⟩
    unfold upsertOp
    rw [hid, if_neg (by simp), hc, if_neg (by simp)]
  · exact upsertBooking_create_missing f db p hid hc

theorem upsertBooking_missing_creator_store_error_witness :
    upsertBooking "fresh2" [] p9 = Except.error StoreError.missingRequired :=
  (upsertBooking_missing_creator_store_error "fresh2" [] p9 (by decide) (by decide)).2

lemma applyUpdate_disconnect_eq (ids : List String) (b : Booking) :
    applyUpdate { assetsDisconnect := some ids } b =
      { b with assets := b.assets.filter (fun x => !(ids.contains x)) } := rfl

lemma find?_map_update (db : List Booking) (i : String) (b0 r : Booking)
    (hfind : db.find? (fun b => b.id == i) = some b0) (hr : r.id = b0.id) :
    (db.map (fun x => if x.id == i then r else x)).find? (fun b => b.id == i) = some r := by
  induction db with
  | nil => simp at hfind
  | cons a l ih =>
    rw [List.map_cons]
    by_cases h : (a.id == i) = true
    · simp only [List.find?_cons, h] at hfind
      injection hfind with e
      subst e
      rw [if_pos h]
      have hrp : (r.id == i) = true := by rw [hr]; exact h
      simp only [List.find?_cons, hrp]
    · have hf : (a.id == i) = false := by simpa using h
      simp only [List.find?_cons, hf] at hfind
      rw [if_neg h]
      simp only [List.find?_cons, hf]
      exact ih hfind

/-- C8: a successful `removeAssets` disconnects exactly the given asset
associations from the targeted booking, leaves every other booking in the
store untouched, and is idempotent — disconnecting an already-absent
association (or the same set again) is a no-op rather than an error. -/
theorem removeAssets_disconnect
    (db : List Booking) (i : String) (ids : List String) (db' : List Booking)
    (ret : Booking) (b0 : Booking)
    (hfind : db.find? (fun b => b.id == i) = some b0)
    (hok : removeAssets db i ids = Except.ok (db', ret)) :
    (∀ x, x ∈ ret.assets ↔ (x ∈ b0.assets ∧ x ∉ ids)) ∧
    (∀ b ∈ db, b.id ≠ i → b ∈ db') ∧
    removeAssets db' i ids = Except.ok (db', ret) := by
  have heq : removeAssets db i ids =
      Except.ok
        (db.map (fun x =>
          if x.id == i then applyUpdate { assetsDisconnect := some ids } b0 else x),
         applyUpdate { assetsDisconnect := some ids } b0) := by
    unfold removeAssets
    simp only [runOp]
    rw [hfind]
  rw [heq] at hok
  injection hok with h
  injection h with h1 h2
  have hretA : ret = applyUpdate { assetsDisconnect := some ids } b0 := h2.symm
  have hdb' : db' = db.map (fun x =>
      if x.id == i then applyUpdate { assetsDisconnect := some ids } b0 else x) := h1.symm
  have hret : ret = { b0 with assets := b0.assets.filter (fun x => !(ids.contains x)) } := by
    rw [hretA, applyUpdate_disconnect_eq]
  refine ⟨fun x => ?_, fun b hb hne => ?_, ?_⟩
  · rw [hret]
    simp [List.mem_filter]
  · rw [hdb']
    refine List.mem_map.mpr ⟨b, hb, ?_⟩
    have hf : (b.id == i) = false := beq_eq_false_iff_ne.mpr hne
    rw [if_neg (by simp [hf])]
  · have hretid : ret.id = b0.id := by rw [hret]
    have hfind' : db'.find? (fun b => b.id == i) = some ret := by
      rw [hdb', ← hretA]
      exact find?_map_update db i b0 ret hfind hretid
    have hra : ret.assets = b0.assets.filter (fun x => !(ids.contains x)) := by rw [hret]
    have hfilt : ret.assets.filter (fun x => !(ids.contains x)) = ret.assets := by
      rw [hra, List.filter_filter]
      simp [Bool.and_self]
    have hfix : applyUpdate { assetsDisconnect := some ids } ret = ret := by
      rw [applyUpdate_disconnect_eq, hfilt]
    have hmap : db'.map (fun x => if x.id == i then ret else x) = db' := by
      have hpt : ∀ x ∈ db', (if x.id == i then ret else x) = x := by
        intro x hx
        by_cases h : (x.id == i) = true
        · rw [if_pos h]
          rw [hdb'] at hx
          obtain ⟨y, hy, hxy⟩ := List.mem_map.mp hx
          by_cases hyp : (y.id == i) = true
          · rw [if_pos hyp] at hxy
            rw [hretA, hxy]
          · rw [if_neg hyp] at hxy
            rw [← hxy] at h
            exact absurd h (by simp [hyp])
        · rw [if_neg h]
      calc db'.map (fun x => if x.id == i then ret else x)
          = db'.map id := List.map_congr_left hpt
        _ = db' := List.map_id db'
    have heq2 : removeAssets db' i ids =
        Except.ok
          (db'.map (fun x =>
            if x.id == i then applyUpdate { assetsDisconnect := some ids } ret else x),
           applyUpdate { assetsDisconnect := some ids } ret) := by
      unfold removeAssets
      simp only [runOp]
      rw [hfind']
    rw [heq2, hfix, hmap]

def bk8 : Booking :=
  { id := "b8", name := "kit", fromDate := 0, toDate := 1,
    status := BookingStatus.RESERVED, organizationId := "o8", creatorId := "u8",
    custodianUserId := none, custodianTeamMemberId := none,
    assets := ["1", "2", "3"], createdAt := 0 }

def ret8 : Booking := { bk8 with assets := ["1", "3"] }

theorem removeAssets_disconnect_witness :
    ("2" ∈ ret8.assets ↔ ("2" ∈ bk8.assets ∧ "2" ∉ ["2", "4"])) ∧
    removeAssets [ret8] "b8" ["2", "4"] = Except.ok ([ret8], ret8) := by
  have h := removeAssets_disconnect [bk8] "b8" ["2", "4"] [ret8] ret8 bk8 rfl rfl
  exact ⟨h.1 "2", h.2.2⟩
